import Mathlib

/-!
Verification development for the ASTRA mask-construction and template-stacking
pipeline.  The repository ships its design documentation (diagrams, notebooks,
paper) but the Python implementation modules themselves are not part of the
source snapshot, so the numeric pipeline below is modelled from the
specification text; the configuration-update routine is embedded from the
verbatim excerpt of ASTRA.utils.UserConfigs shown in the configuration
notebook.  All quantities are rationals: wavelengths in Angstrom, velocities
in km/s, flux uncertainties carried as variances so that every operation stays
inside exact rational arithmetic.
-/

/-- Speed of light in km/s, as the rational 299792.458 used by the pipeline. -/
def cLight : ℚ := 299792458 / 1000

/-- A closed wavelength interval, given by its lower and upper bound. -/
abbrev WvInterval : Type := ℚ × ℚ

/-- Modelled from the spec: a Frame holds one observation with its wavelength
grid, flux, flux variance, per-pixel validity mask, barycentric velocity,
prior radial-velocity estimate, optional humidity metadata and a frame-level
validity flag (section 3 of the design document; the Python Frame class is not
part of the source snapshot). -/
structure Frame where
  wavelengths : List ℚ
  flux : List ℚ
  variance : List ℚ
  pixelValid : List Bool
  berv : ℚ
  rv : ℚ
  humidity : Option ℚ
  isValid : Bool
deriving DecidableEq, Repr

/-- Boolean membership of a wavelength in a closed interval. -/
def inIntervalB (x : ℚ) (i : WvInterval) : Bool :=
  decide (i.1 ≤ x) && decide (x ≤ i.2)

/-- A wavelength is flagged when it lies inside at least one interval. -/
def flaggedB (L : List WvInterval) (x : ℚ) : Bool :=
  L.any (fun i => inIntervalB x i)

/-- Modelled from the spec: the pixel-wise binary mask of a wavelength grid
with respect to a set of flagged intervals (Mask Builder, section 4.1). -/
def maskFromIntervals (grid : List ℚ) (L : List WvInterval) : List Bool :=
  grid.map (fun x => flaggedB L x)

/-- Pointwise union (logical or) of two binary pixel masks. -/
def maskUnion (a b : List Bool) : List Bool :=
  List.zipWith or a b

/-- Modelled from the spec: symmetric widening of a flagged interval by the
wavelength-space equivalent of the maximum yearly barycentric velocity
amplitude, using the formula of section 4.1 step 2 of the design document. -/
def widenInterval (vmax : ℚ) (i : WvInterval) : WvInterval :=
  (i.1 - i.1 * vmax / cLight, i.2 + i.2 * vmax / cLight)

/-- Modelled from the spec: Doppler shift of an interval by a barycentric
velocity, moving both endpoints by the factor of the classical form. -/
def shiftInterval (v : ℚ) (i : WvInterval) : WvInterval :=
  (i.1 * (1 + v / cLight), i.2 * (1 + v / cLight))

/-- Modelled from the spec: one shift-and-union step of section 4.1 step 3 of
the design document; the widened intervals are shifted by the barycentric
velocity of one Frame and the newly covered pixels are unioned into the
dataset-level mask. -/
def bervStep (grid : List ℚ) (widened : List WvInterval) (acc : List Bool) (f : Frame) :
    List Bool :=
  maskUnion acc (maskFromIntervals grid (widened.map (fun i => shiftInterval f.berv i)))

/-- Modelled from the spec: the single, non-iterative shift-and-union pass over
all Frames of a partition. -/
def extendWithBERVs (grid : List ℚ) (widened : List WvInterval) (frames : List Frame)
    (init : List Bool) : List Bool :=
  frames.foldl (fun acc f => bervStep grid widened acc f) init

/-- Modelled from the spec: full telluric pixel-mask construction of
section 4.1 of the design document; widen every telluric interval by the
maximum yearly BERV amplitude, flag the grid pixels covered by the widened
intervals, then perform the per-Frame shift-and-union pass. -/
def buildTelluricPixelMask (grid : List ℚ) (tellurics : List WvInterval) (vmax : ℚ)
    (frames : List Frame) : List Bool :=
  let widened := tellurics.map (fun i => widenInterval vmax i)
  extendWithBERVs grid widened frames (maskFromIntervals grid widened)

/-- Pointwise ordering of binary masks: every pixel flagged on the left is
also flagged on the right, position by position. -/
def MaskLE (a b : List Bool) : Prop :=
  List.Forall₂ (fun x y => x = true → y = true) a b

/-- Modelled from the spec: comparison step of the worst-conditions search of
section 4.2 of the design document; a candidate replaces the current best only
when it carries humidity metadata that strictly exceeds the metadata of the
best, and a candidate without humidity metadata never replaces anything. -/
def pickWorse (best f : Frame) : Frame :=
  match f.humidity with
  | none => best
  | some hf =>
      match best.humidity with
      | none => f
      | some hb => if hb < hf then f else best

/-- Modelled from the spec: selection, among the Frames of a partition, of the
observation with the highest humidity metadata value, falling back to the
first Frame in partition order when no humidity metadata exists. -/
def selectWorstConditions : List Frame → Option Frame
  | [] => none
  | f :: fs => some (fs.foldl pickWorse f)

/-- Humidity of a Frame with a default of zero for missing metadata. -/
def humidityD (f : Frame) : ℚ := f.humidity.getD 0

/-- Pixel inclusion policy of the Stellar Template Builder (section 4.3
step 5 of the design document). -/
inductive Policy where
  | union : Policy
  | intersection : Policy
deriving DecidableEq, Repr

/-- Configuration of the Stellar Template Builder: minimum number of valid
Frames and the pixel inclusion policy. -/
structure Config where
  minValidFrames : ℕ
  policy : Policy
deriving DecidableEq, Repr

/-- Modelled from the spec: rest-frame wavelength of a pixel after removal of
the prior radial-velocity estimate of the Frame, classical form. -/
def restWave (f : Frame) (x : ℚ) : ℚ := x / (1 + f.rv / cLight)

/-- Index-preserving extraction of the valid pixels of parallel wavelength,
flux, variance and validity-mask arrays. -/
def validPoints : List ℚ → List ℚ → List ℚ → List Bool → List (ℚ × ℚ × ℚ)
  | w :: ws, fl :: fs, v :: vs, m :: ms =>
      if m then (w, fl, v) :: validPoints ws fs vs ms else validPoints ws fs vs ms
  | _, _, _, _ => []

/-- Valid pixels of a Frame, Doppler-shifted into the stellar rest frame. -/
def framePoints (f : Frame) : List (ℚ × ℚ × ℚ) :=
  (validPoints f.wavelengths f.flux f.variance f.pixelValid).map
    (fun p => (restWave f p.1, p.2.1, p.2.2))

/-- Modelled from the spec: deterministic linear interpolation of a sampled
spectrum at one target wavelength, propagating the variance through the
interpolation weights; returns none when the target is not bracketed by two
consecutive valid samples (section 4.3 step 3 of the design document). -/
def interpAt : List (ℚ × ℚ × ℚ) → ℚ → Option (ℚ × ℚ)
  | p :: q :: rest, x =>
      if p.1 ≤ x ∧ x ≤ q.1 then
        let t := (x - p.1) / (q.1 - p.1)
        some (p.2.1 + t * (q.2.1 - p.2.1), (1 - t) ^ 2 * p.2.2 + t ^ 2 * q.2.2)
      else interpAt (q :: rest) x
  | _, _ => none

/-- Contribution of one Frame to every pixel of the template grid. -/
def contribRow (f : Frame) (grid : List ℚ) : List (Option (ℚ × ℚ)) :=
  grid.map (fun x => interpAt (framePoints f) x)

/-- Contributions of all Frames to the template pixel with a given index. -/
def contribsAt (rows : List (List (Option (ℚ × ℚ)))) (j : ℕ) : List (Option (ℚ × ℚ)) :=
  rows.map (fun r => r.getD j none)

/-- Modelled from the spec: inverse-variance-weighted stacking of the valid
contributions to one template pixel, with the stacked variance propagated in
quadrature consistent with the weighting (section 4.3 step 4). -/
def stackPixel (cs : List (Option (ℚ × ℚ))) : ℚ × ℚ :=
  let pts := cs.filterMap id
  let den := (pts.map (fun p => 1 / p.2)).sum
  let num := (pts.map (fun p => p.1 / p.2)).sum
  if den = 0 then (0, 0) else (num / den, 1 / den)

/-- Modelled from the spec: pixel inclusion decision; union keeps a pixel when
at least one observation validly contributed, intersection keeps a pixel only
when every valid observation contributed. -/
def keptPixel : Policy → List (Option (ℚ × ℚ)) → Bool
  | .union, cs => cs.any (fun c => c.isSome)
  | .intersection, cs => cs.all (fun c => c.isSome)

/-- A stacked stellar template: wavelength grid, stacked flux, propagated
variance and the per-pixel inclusion flags. -/
structure Template where
  waves : List ℚ
  flux : List ℚ
  uncert : List ℚ
  kept : List Bool
deriving DecidableEq, Repr

/-- Modelled from the spec: construction of the template from the valid Frames
of a partition, with the first valid Frame fixing the wavelength grid. -/
def buildFromValid (policy : Policy) (ref : Frame) (valid : List Frame) : Template :=
  let grid := ref.wavelengths.map (fun x => restWave ref x)
  let rows := valid.map (fun f => contribRow f grid)
  let cs := (List.range grid.length).map (fun j => contribsAt rows j)
  ⟨grid, cs.map (fun c => (stackPixel c).1), cs.map (fun c => (stackPixel c).2),
    cs.map (fun c => keptPixel policy c)⟩

/-- Failure conditions of the Stellar Template Builder. -/
inductive TemplateError where
  | insufficientData : TemplateError
deriving DecidableEq, Repr

/-- Modelled from the spec: the Stellar Template Builder of section 4.3 of the
design document; a partition with fewer valid Frames than the configured
minimum (or with no valid Frame at all) produces no template and surfaces the
insufficient-data condition. -/
def buildStellarTemplate (cfg : Config) (frames : List Frame) :
    Except TemplateError Template :=
  let valid := frames.filter (fun f => f.isValid)
  if valid.length < cfg.minValidFrames then .error .insufficientData
  else
    match valid with
    | [] => .error .insufficientData
    | ref :: rest => .ok (buildFromValid cfg.policy ref (ref :: rest))

/-- Number of template pixels kept by the inclusion policy. -/
def countKept (t : Template) : ℕ := t.kept.countP (fun b => b)

/-- A persisted-template key: partition identifier and configuration
fingerprint. -/
abbrev CacheKey : Type := String × String

/-- The on-disk template store, an association of keys to templates. -/
abbrev Store : Type := List (CacheKey × Template)

/-- Lookup of a stored template by key. -/
def storeLookup : Store → CacheKey → Option Template
  | [], _ => none
  | (k0, t0) :: rest, k => if k = k0 then some t0 else storeLookup rest k

/-- Storing a template under a key; a later lookup finds the newest entry. -/
def storeInsert (s : Store) (k : CacheKey) (t : Template) : Store :=
  (k, t) :: s

/-- Modelled from the spec: idempotent persistence of section 4.4 of the
design document; return a previously stored template matching the fingerprint
if one exists, else invoke the builder and store the result before returning
it.  The Boolean reports whether the builder was invoked. -/
def load_or_build (s : Store) (k : CacheKey) (cfg : Config) (frames : List Frame) :
    Except TemplateError Template × Store × Bool :=
  match storeLookup s k with
  | some t => (.ok t, s, false)
  | none =>
      match buildStellarTemplate cfg frames with
      | .error e => (.error e, s, true)
      | .ok t => (.ok t, storeInsert s k t, true)

/-- Modelled from the spec: force-rebuild mode of section 4.4 of the design
document; bypass the lookup, always rebuild, then overwrite the store. -/
def forceRebuild (s : Store) (k : CacheKey) (cfg : Config) (frames : List Frame) :
    Except TemplateError (Template × Store) :=
  match buildStellarTemplate cfg frames with
  | .error e => .error e
  | .ok t => .ok (t, storeInsert s k t)

/-- Configuration errors raised before any numeric work begins. -/
inductive ConfigError where
  | duplicateName : ConfigError
deriving DecidableEq, Repr

/-- The registry of named wavelength-interval declarations of a partition. -/
structure Indicators where
  features : List (String × WvInterval)
deriving DecidableEq, Repr

/-- Modelled from the spec: the fixed built-in list of activity-sensitive
features of the optical domain that the Indicators object carries by default;
the exact built-in intervals are not part of the source snapshot, only their
existence and their built-in names matter here. -/
def defaultFeatures : List (String × WvInterval) :=
  [("CaIIK", (3933, 3935)), ("CaIIH", (3967, 3969)), ("Halpha", (6562, 6564)),
   ("NaID1", (5895, 5897)), ("NaID2", (5889, 5891))]

/-- An Indicators object as created, holding the built-in default features. -/
def initialIndicators : Indicators := ⟨defaultFeatures⟩

/-- Modelled from the spec: registration of a user wavelength interval under a
unique name; a name that repeats an already registered one, the built-in
default features included, is a configuration error and the registry is not
modified (open-spectra notebook, add-feature cell). -/
def add_feature (ind : Indicators) (nm : String) (region : WvInterval) :
    Except ConfigError Indicators :=
  if nm ∈ ind.features.map Prod.fst then .error .duplicateName
  else .ok ⟨ind.features ++ [(nm, region)]⟩

/-- A configuration value, covering the dtypes exercised by the notebook. -/
inductive ConfigValue where
  | vbool : Bool → ConfigValue
  | vnone : ConfigValue
  | vstr : String → ConfigValue
  | vint : Int → ConfigValue
deriving DecidableEq, Repr

/-- The dtype of a configuration value. -/
inductive Dtype where
  | dbool : Dtype
  | dnone : Dtype
  | dstr : Dtype
  | dint : Dtype
deriving DecidableEq, Repr

/-- Dtype classification of a configuration value. -/
def dtypeOf : ConfigValue → Dtype
  | .vbool _ => .dbool
  | .vnone => .dnone
  | .vstr _ => .dstr
  | .vint _ => .dint

/-- One constraint evaluator of the validation layer: membership of the dtype
of the value in a list of valid dtypes, or membership of the value in a list
of allowed values, as printed by the configuration notebook. -/
inductive ConstraintKind where
  | valueFromDtype : List Dtype → ConstraintKind
  | valueFromList : List ConfigValue → ConstraintKind
deriving DecidableEq, Repr

/-- Evaluation of one constraint on a value, following the ValueFromDtype
evaluator shown in the notebook traceback. -/
def evalConstraint : ConstraintKind → ConfigValue → Bool
  | .valueFromDtype valid, v => (dtypeOf v) ∈ valid
  | .valueFromList allowed, v => v ∈ allowed

/-- The constraint check of a parameter runs every evaluator of its constraint
list and succeeds only when none of them raises, as in the traceback excerpt
of parameter validation shown in the configuration notebook. -/
def check_if_value_meets_constraint (cs : List ConstraintKind) (v : ConfigValue) : Bool :=
  cs.all (fun c => evalConstraint c v)

/-- A parameter definition: its constraint list and its default value. -/
structure UserParam where
  constraints : List ConstraintKind
  default : ConfigValue
deriving DecidableEq, Repr

/-- The internal parameter state of an ASTRA object: the declared parameter
definitions and the currently stored configuration values. -/
structure InternalParameters where
  paramDefs : List (String × UserParam)
  userConfigs : List (String × ConfigValue)
deriving DecidableEq, Repr

/-- Lookup of a parameter definition by name. -/
def lookupParam : List (String × UserParam) → String → Option UserParam
  | [], _ => none
  | (k0, p0) :: rest, k => if k = k0 then some p0 else lookupParam rest k

/-- Lookup of a stored configuration value by name. -/
def lookupConfig : List (String × ConfigValue) → String → Option ConfigValue
  | [], _ => none
  | (k0, v0) :: rest, k => if k = k0 then some v0 else lookupConfig rest k

/-- The currently stored configuration value of a parameter. -/
def getConfig (p : InternalParameters) (k : String) : Option ConfigValue :=
  lookupConfig p.userConfigs k

/-- Assignment of a stored configuration value, shadowing any older entry. -/
def setConfig (p : InternalParameters) (k : String) (v : ConfigValue) :
    InternalParameters :=
  ⟨p.paramDefs, (k, v) :: p.userConfigs⟩

/-- The low-level exception of the validation layer. -/
inductive LowError where
  | invalidConfiguration : LowError
deriving DecidableEq, Repr

/-- Errors of the configuration-update routine; the internal error records the
low-level exception it was re-raised from. -/
inductive AstraError where
  | internalError : Option LowError → AstraError
deriving DecidableEq, Repr

/-- Embedded from the traceback excerpt of
ASTRA.utils.UserConfigs.InternalParameters.update_configs_with_values shown in
the configuration notebook: each user-given pair is checked against the
constraints of its declared parameter; a failing check logs, re-raises the
InvalidConfiguration exception as InternalError and leaves the stored value
untouched, while the assignment of the value happens only after the check
succeeds.  A key without a declared parameter is likewise an internal error. -/
def update_configs_with_values (p : InternalParameters) :
    List (String × ConfigValue) → InternalParameters × Option AstraError
  | [] => (p, none)
  | (key, value) :: rest =>
      match lookupParam p.paramDefs key with
      | none => (p, some (.internalError none))
      | some pdef =>
          if check_if_value_meets_constraint pdef.constraints value then
            update_configs_with_values (setConfig p key value) rest
          else (p, some (.internalError (some .invalidConfiguration)))


/-- A one-pixel Frame with a given barycentric velocity and no humidity. -/
def mkBervFrame (b : ℚ) : Frame := ⟨[5000], [1], [1], [true], b, 0, none, true⟩

/-- A one-pixel Frame with a given humidity metadata value. -/
def mkHumFrame (h : ℚ) : Frame := ⟨[5000], [1], [1], [true], 0, 0, some h, true⟩

/-- A one-pixel Frame without humidity metadata, tagged by its wavelength. -/
def mkDryFrame (w : ℚ) : Frame := ⟨[w], [1], [1], [true], 0, 0, none, true⟩

/-- A small two-pixel valid Frame used for concrete evaluations. -/
def sampleFrame : Frame := ⟨[1, 2], [1, 1], [1, 1], [true, true], 0, 0, some 50, true⟩

/-- A concrete cache key: partition identifier and configuration fingerprint. -/
def sampleKey : CacheKey := ("subInst1", "fp1")

/-- A builder configuration requiring one valid Frame, union policy. -/
def cfgUnion1 : Config := ⟨1, .union⟩

/-- A builder configuration requiring one valid Frame, intersection policy. -/
def cfgInter1 : Config := ⟨1, .intersection⟩

/-- A builder configuration requiring two valid Frames. -/
def cfgMin2 : Config := ⟨2, .union⟩

/-- The template built from the sample Frame under the union policy. -/
def sampleTemplate : Template := buildFromValid .union sampleFrame [sampleFrame]

/-- The template built from the sample Frame under the intersection policy. -/
def sampleTemplateInter : Template := buildFromValid .intersection sampleFrame [sampleFrame]

/-- The parameter definition of apply_FluxCorr shown by the configuration
notebook: a Boolean-only dtype constraint with default False. -/
def pdefFluxCorr : UserParam := ⟨[.valueFromDtype [.dbool]], .vbool false⟩

/-- An internal parameter state holding the apply_FluxCorr parameter with its
stored value. -/
def fluxCorrParams : InternalParameters :=
  ⟨[("apply_FluxCorr", pdefFluxCorr)], [("apply_FluxCorr", .vbool false)]⟩

/-- Union of binary masks commutes in its two right arguments. -/
theorem maskUnion_right_comm (a b c : List Bool) :
    maskUnion (maskUnion a b) c = maskUnion (maskUnion a c) b := by
  induction a generalizing b c with
  | nil => simp [maskUnion]
  | cons x xs ih =>
    cases b with
    | nil => cases c <;> simp [maskUnion]
    | cons y ys =>
      cases c with
      | nil => simp [maskUnion]
      | cons z zs =>
        simp only [maskUnion, List.zipWith_cons_cons]
        exact congrArg₂ List.cons (by cases x <;> cases y <;> cases z <;> rfl) (ih ys zs)

/-- The shift-and-union pass gives equal masks on permuted Frame lists. -/
theorem extendWithBERVs_perm (grid : List ℚ) (w : List WvInterval)
    {fs₁ fs₂ : List Frame} (hp : fs₁.Perm fs₂) (init : List Bool) :
    extendWithBERVs grid w fs₁ init = extendWithBERVs grid w fs₂ init := by
  unfold extendWithBERVs
  induction hp generalizing init with
  | nil => rfl
  | cons x _ ih => simp only [List.foldl_cons]; exact ih _
  | swap x y l =>
    simp only [List.foldl_cons]
    have h : bervStep grid w (bervStep grid w init y) x
        = bervStep grid w (bervStep grid w init x) y := by
      unfold bervStep
      exact maskUnion_right_comm init _ _
    rw [h]
  | trans _ _ ih₁ ih₂ => exact (ih₁ _).trans (ih₂ _)

/-- Claim C2: for every partition and every permutation of its Frames, the
per-Frame BERV shift-and-union pass produces exactly the same final pixel
mask in the permuted order as in the original order. -/
theorem telluric_mask_order_independent (grid : List ℚ) (tell : List WvInterval)
    (vmax : ℚ) {fs₁ fs₂ : List Frame} (hp : fs₁.Perm fs₂) :
    buildTelluricPixelMask grid tell vmax fs₁ = buildTelluricPixelMask grid tell vmax fs₂ := by
  unfold buildTelluricPixelMask
  exact extendWithBERVs_perm grid _ hp _

/-- Witness for claim C2 at a concrete grid, telluric interval and a swapped
pair of Frames with barycentric velocities 5 and -5 km/s. -/
theorem telluric_mask_order_independent_witness :
    buildTelluricPixelMask [4999, 5000, 5001] [(5000, 10001/2)] 30
        [mkBervFrame 5, mkBervFrame (-5)]
      = buildTelluricPixelMask [4999, 5000, 5001] [(5000, 10001/2)] 30
        [mkBervFrame (-5), mkBervFrame 5] :=
  telluric_mask_order_independent [4999, 5000, 5001] [(5000, 10001/2)] 30
    (List.Perm.swap (mkBervFrame (-5)) (mkBervFrame 5) [])

/-- The speed of light constant is positive. -/
theorem cLight_pos : 0 < cLight := by norm_num [cLight]

/-- Widening an interval with nonnegative endpoints by a nonnegative velocity
amplitude keeps every wavelength of the original interval flagged. -/
theorem inIntervalB_widen {vmax : ℚ} {i : WvInterval} (hv : 0 ≤ vmax)
    (h1 : 0 ≤ i.1) (h2 : 0 ≤ i.2) {x : ℚ} (hx : inIntervalB x i = true) :
    inIntervalB x (widenInterval vmax i) = true := by
  simp only [inIntervalB, widenInterval, Bool.and_eq_true, decide_eq_true_eq] at hx ⊢
  obtain ⟨hlo, hhi⟩ := hx
  have hq1 : 0 ≤ i.1 * vmax / cLight := div_nonneg (mul_nonneg h1 hv) cLight_pos.le
  have hq2 : 0 ≤ i.2 * vmax / cLight := div_nonneg (mul_nonneg h2 hv) cLight_pos.le
  constructor <;> linarith

/-- A wavelength flagged by a set of intervals stays flagged after widening
all of them. -/
theorem flaggedB_widen {vmax : ℚ} {tell : List WvInterval} (hv : 0 ≤ vmax)
    (hnn : ∀ i ∈ tell, 0 ≤ i.1 ∧ 0 ≤ i.2) (x : ℚ)
    (hx : flaggedB tell x = true) :
    flaggedB (tell.map (fun i => widenInterval vmax i)) x = true := by
  simp only [flaggedB, List.any_eq_true] at hx ⊢
  obtain ⟨i, hi, hxi⟩ := hx
  exact ⟨widenInterval vmax i, List.mem_map_of_mem _ hi,
    inIntervalB_widen hv (hnn i hi).1 (hnn i hi).2 hxi⟩

/-- Reflexivity of the pointwise mask ordering. -/
theorem maskLE_refl (a : List Bool) : MaskLE a a := by
  induction a with
  | nil => exact List.Forall₂.nil
  | cons x xs ih => exact List.Forall₂.cons (fun h => h) ih

/-- Transitivity of the pointwise mask ordering. -/
theorem maskLE_trans {a b c : List Bool} (h₁ : MaskLE a b) (h₂ : MaskLE b c) :
    MaskLE a c := by
  unfold MaskLE at h₁ h₂ ⊢
  induction h₁ generalizing c with
  | nil => cases h₂; exact List.Forall₂.nil
  | cons hxy _ ih =>
    cases h₂ with
    | cons hyz hrest => exact List.Forall₂.cons (fun h => hyz (hxy h)) (ih hrest)

/-- A mask is pointwise below its union with an equally long mask. -/
theorem maskLE_union_left {a b : List Bool} (h : a.length = b.length) :
    MaskLE a (maskUnion a b) := by
  induction a generalizing b with
  | nil => exact List.Forall₂.nil
  | cons x xs ih =>
    cases b with
    | nil => simp at h
    | cons y ys =>
      simp only [maskUnion, List.zipWith_cons_cons]
      exact List.Forall₂.cons (fun hx => by simp [hx]) (ih (by simpa using h))

/-- The shift-and-union pass only grows a mask whose length matches the grid. -/
theorem maskLE_extendWithBERVs (grid : List ℚ) (w : List WvInterval)
    (frames : List Frame) {acc : List Bool} (h : acc.length = grid.length) :
    MaskLE acc (extendWithBERVs grid w frames acc) := by
  induction frames generalizing acc with
  | nil => exact maskLE_refl _
  | cons f fs ih =>
    have hstep : MaskLE acc (bervStep grid w acc f) := by
      unfold bervStep
      exact maskLE_union_left (by simp [maskFromIntervals, h])
    have hlen : (bervStep grid w acc f).length = grid.length := by
      simp [bervStep, maskUnion, maskFromIntervals, h]
    simp only [extendWithBERVs, List.foldl_cons]
    exact maskLE_trans hstep (ih hlen)

/-- Pixel masks of the same grid are pointwise ordered when the flagged
predicate is pointwise ordered. -/
theorem maskLE_mono_intervals (grid : List ℚ) {L₁ L₂ : List WvInterval}
    (h : ∀ x, flaggedB L₁ x = true → flaggedB L₂ x = true) :
    MaskLE (maskFromIntervals grid L₁) (maskFromIntervals grid L₂) := by
  induction grid with
  | nil => exact List.Forall₂.nil
  | cons x g ih => exact List.Forall₂.cons (h x) ih

/-- Pointwise mask ordering transfers flagged pixels through getD. -/
theorem maskLE_getD {a b : List Bool} (h : MaskLE a b) {j : ℕ}
    (hj : a.getD j false = true) : b.getD j false = true := by
  unfold MaskLE at h
  induction h generalizing j with
  | nil => simp at hj
  | cons hxy _ ih =>
    cases j with
    | zero => exact hxy hj
    | succ n => exact ih hj

/-- The pixel mask of a grid evaluates at a valid index to the flagged
predicate of the grid wavelength at that index. -/
theorem maskFromIntervals_getD (grid : List ℚ) (L : List WvInterval) (j : ℕ)
    (hj : j < grid.length) :
    (maskFromIntervals grid L).getD j false = flaggedB L (grid.getD j 0) := by
  induction grid generalizing j with
  | nil => simp at hj
  | cons x g ih =>
    cases j with
    | zero => rfl
    | succ n =>
      simp only [maskFromIntervals, List.map_cons, List.getD_cons_succ]
      exact ih n (by simpa using hj)

/-- Claim C3: every telluric interval is widened symmetrically by the
wavelength-space equivalent of the maximum yearly BERV amplitude before the
per-Frame shifting, the finalized pixel mask is a superset of the unwidened
telluric interval set, and in the concrete scenario of the interval
5000.0 to 5000.5 Angstrom with a 30 km/s amplitude the widened interval
covers 4999.5 to 5001.0 Angstrom and the final mask flags every grid pixel
of that range in the rest frame. -/
theorem telluric_mask_superset (grid : List ℚ) (tell : List WvInterval)
    (vmax : ℚ) (frames : List Frame) (j : ℕ) (hv : 0 ≤ vmax)
    (hnn : ∀ i ∈ tell, 0 ≤ i.1 ∧ 0 ≤ i.2) :
    ((maskFromIntervals grid tell).getD j false = true →
      (buildTelluricPixelMask grid tell vmax frames).getD j false = true)
    ∧ (widenInterval 30 (5000, 10001/2)).1 ≤ 9999/2
    ∧ (5001 : ℚ) ≤ (widenInterval 30 (5000, 10001/2)).2
    ∧ (j < grid.length → 9999/2 ≤ grid.getD j 0 → grid.getD j 0 ≤ 5001 →
        (buildTelluricPixelMask grid [(5000, 10001/2)] 30 frames).getD j false = true) := by
  have hwid : ∀ (tl : List WvInterval) (vm : ℚ), 0 ≤ vm →
      (∀ i ∈ tl, 0 ≤ i.1 ∧ 0 ≤ i.2) →
      ∀ k : ℕ, (maskFromIntervals grid tl).getD k false = true →
      (buildTelluricPixelMask grid tl vm frames).getD k false = true := by
    intro tl vm hvm hnn2 k hk
    unfold buildTelluricPixelMask
    have h₁ : MaskLE (maskFromIntervals grid tl)
        (maskFromIntervals grid (tl.map (fun i => widenInterval vm i))) :=
      maskLE_mono_intervals grid (fun x hx => flaggedB_widen hvm hnn2 x hx)
    have h₂ : MaskLE (maskFromIntervals grid (tl.map (fun i => widenInterval vm i)))
        (extendWithBERVs grid (tl.map (fun i => widenInterval vm i)) frames
          (maskFromIntervals grid (tl.map (fun i => widenInterval vm i)))) :=
      maskLE_extendWithBERVs grid _ frames (by simp [maskFromIntervals])
    exact maskLE_getD (maskLE_trans h₁ h₂) hk
  have hlo : (widenInterval 30 ((5000 : ℚ), 10001/2)).1 ≤ 9999/2 := by
    norm_num [widenInterval, cLight]
  have hhi : (5001 : ℚ) ≤ (widenInterval 30 ((5000 : ℚ), 10001/2)).2 := by
    norm_num [widenInterval, cLight]
  refine ⟨hwid tell vmax hv hnn j, hlo, hhi, ?_⟩
  intro hjlen h1 h2
  have hflag : flaggedB [widenInterval 30 ((5000 : ℚ), 10001/2)] (grid.getD j 0) = true := by
    simp only [flaggedB, List.any_cons, List.any_nil, Bool.or_false, inIntervalB,
      Bool.and_eq_true, decide_eq_true_eq]
    constructor <;> linarith
  have hinit :
      (maskFromIntervals grid [widenInterval 30 ((5000 : ℚ), 10001/2)]).getD j false = true := by
    rw [maskFromIntervals_getD grid _ j hjlen]
    exact hflag
  have hext : MaskLE (maskFromIntervals grid [widenInterval 30 ((5000 : ℚ), 10001/2)])
      (extendWithBERVs grid [widenInterval 30 ((5000 : ℚ), 10001/2)] frames
        (maskFromIntervals grid [widenInterval 30 ((5000 : ℚ), 10001/2)])) :=
    maskLE_extendWithBERVs grid _ frames (by simp [maskFromIntervals])
  have hfin := maskLE_getD hext hinit
  simpa only [buildTelluricPixelMask, List.map_cons, List.map_nil] using hfin

/-- Witness for claim C3: on a concrete grid with a pixel at 5000 Angstrom,
the telluric interval 5000.0 to 5000.5, a 30 km/s amplitude and Frames with
barycentric velocities 0, 5 and -5 km/s, the final mask flags the pixel and
the widened interval covers 4999.5 to 5001.0. -/
theorem telluric_mask_superset_witness :
    (buildTelluricPixelMask [4999, 5000, 5001] [(5000, 10001/2)] 30
        [mkBervFrame 0, mkBervFrame 5, mkBervFrame (-5)]).getD 1 false = true
    ∧ (widenInterval 30 (5000, 10001/2)).1 ≤ 9999/2
    ∧ (5001 : ℚ) ≤ (widenInterval 30 (5000, 10001/2)).2 := by
  have h := telluric_mask_superset [4999, 5000, 5001] [(5000, 10001/2)] 30
    [mkBervFrame 0, mkBervFrame 5, mkBervFrame (-5)] 1 (by norm_num) (by norm_num)
  refine ⟨h.1 ?_, h.2.1, h.2.2.1⟩
  norm_num [maskFromIntervals, flaggedB, inIntervalB]

/-- The worst-conditions fold returns a Frame of the candidate pool whose
humidity bounds the humidity of the start Frame and of every candidate, as
long as every Frame involved carries humidity metadata. -/
theorem foldl_pickWorse_spec (l : List Frame) :
    ∀ b : Frame, (∀ g ∈ l, g.humidity.isSome = true) → b.humidity.isSome = true →
      l.foldl pickWorse b ∈ b :: l
      ∧ humidityD b ≤ humidityD (l.foldl pickWorse b)
      ∧ ∀ g ∈ l, humidityD g ≤ humidityD (l.foldl pickWorse b) := by
  induction l with
  | nil =>
    intro b _ _
    exact ⟨List.mem_singleton.mpr rfl, le_refl _, by simp⟩
  | cons g t ih =>
    intro b hall hb
    have hg : g.humidity.isSome = true := hall g (by simp)
    obtain ⟨qb, hqb⟩ := Option.isSome_iff_exists.mp hb
    obtain ⟨qg, hqg⟩ := Option.isSome_iff_exists.mp hg
    have hpick : pickWorse b g = if qb < qg then g else b := by
      simp [pickWorse, hqb, hqg]
    have hbsome : (pickWorse b g).humidity.isSome = true := by
      rw [hpick]; split <;> simp [hqg, hqb]
    have hble : humidityD b ≤ humidityD (pickWorse b g)
        ∧ humidityD g ≤ humidityD (pickWorse b g) := by
      rw [hpick]
      unfold humidityD
      rcases lt_or_ge qb qg with hlt | hge
      · rw [if_pos hlt]; simp [hqb, hqg]; exact le_of_lt hlt
      · rw [if_neg (not_lt.mpr hge)]; simp [hqb, hqg]; exact hge
    have hmem : pickWorse b g = b ∨ pickWorse b g = g := by
      rw [hpick]; split
      · exact Or.inr rfl
      · exact Or.inl rfl
    have hrec := ih (pickWorse b g) (fun x hx => hall x (by simp [hx])) hbsome
    simp only [List.foldl_cons]
    refine ⟨?_, le_trans hble.1 hrec.2.1, ?_⟩
    · rcases List.mem_cons.mp hrec.1 with h1 | h1
      · rw [h1]
        rcases hmem with h2 | h2 <;> simp [h2]
      · simp [List.mem_cons, h1]
    · intro x hx
      rcases List.mem_cons.mp hx with rfl | hx2
      · exact le_trans hble.2 hrec.2.1
      · exact hrec.2.2 x hx2

/-- Claim C4: in a partition whose valid Frames all carry humidity metadata,
the Telluric Model selects a Frame whose humidity value is maximal, regardless
of its position; in the concrete scenario with humidity values 10, 90 and 40
the Frame with humidity 90 is selected. -/
theorem highest_humidity_selected (frames : List Frame) (hne : frames ≠ [])
    (hall : ∀ f ∈ frames, f.humidity.isSome = true) :
    (∃ f, selectWorstConditions frames = some f ∧ f ∈ frames
      ∧ ∀ g ∈ frames, humidityD g ≤ humidityD f)
    ∧ selectWorstConditions [mkHumFrame 10, mkHumFrame 90, mkHumFrame 40]
        = some (mkHumFrame 90) := by
  constructor
  · cases frames with
    | nil => exact absurd rfl hne
    | cons f fs =>
      have hf : f.humidity.isSome = true := hall f (by simp)
      have h := foldl_pickWorse_spec fs f (fun g hg => hall g (by simp [hg])) hf
      refine ⟨fs.foldl pickWorse f, rfl, h.1, ?_⟩
      intro g hg
      rcases List.mem_cons.mp hg with rfl | hg2
      · exact h.2.1
      · exact h.2.2 g hg2
  · decide

/-- Witness for claim C4 at the concrete scenario with humidity values 10, 90
and 40: a maximal-humidity Frame is selected, and it is the one with 90. -/
theorem highest_humidity_selected_witness :
    (∃ f, selectWorstConditions [mkHumFrame 10, mkHumFrame 90, mkHumFrame 40] = some f
      ∧ f ∈ [mkHumFrame 10, mkHumFrame 90, mkHumFrame 40]
      ∧ ∀ g ∈ [mkHumFrame 10, mkHumFrame 90, mkHumFrame 40], humidityD g ≤ humidityD f)
    ∧ selectWorstConditions [mkHumFrame 10, mkHumFrame 90, mkHumFrame 40]
        = some (mkHumFrame 90) :=
  highest_humidity_selected [mkHumFrame 10, mkHumFrame 90, mkHumFrame 40]
    (by simp)
    (by
      intro f hf
      simp only [List.mem_cons, List.not_mem_nil, or_false] at hf
      rcases hf with rfl | rfl | rfl <;> rfl)

/-- The worst-conditions fold never moves away from the start Frame when no
candidate carries humidity metadata. -/
theorem foldl_pickWorse_none (l : List Frame) :
    ∀ b : Frame, (∀ g ∈ l, g.humidity = none) → l.foldl pickWorse b = b := by
  induction l with
  | nil => intro b _; rfl
  | cons g t ih =>
    intro b hall
    have hg : g.humidity = none := hall g (by simp)
    have hstep : pickWorse b g = b := by simp [pickWorse, hg]
    simp only [List.foldl_cons, hstep]
    exact ih b (fun x hx => hall x (by simp [hx]))

/-- Claim C8: when no Frame of the partition carries humidity metadata, the
worst-conditions selection falls back deterministically to the first Frame in
partition order. -/
theorem no_humidity_first_frame_fallback (frames : List Frame)
    (h : ∀ f ∈ frames, f.humidity = none) :
    selectWorstConditions frames = frames.head? := by
  cases frames with
  | nil => rfl
  | cons f fs =>
    simp only [selectWorstConditions, List.head?]
    rw [foldl_pickWorse_none fs f (fun g hg => h g (by simp [hg]))]

/-- Witness for claim C8 on two concrete Frames without humidity metadata:
the first Frame in partition order is selected. -/
theorem no_humidity_first_frame_fallback_witness :
    selectWorstConditions [mkDryFrame 5001, mkDryFrame 5002]
      = [mkDryFrame 5001, mkDryFrame 5002].head? :=
  no_humidity_first_frame_fallback [mkDryFrame 5001, mkDryFrame 5002]
    (by
      intro f hf
      simp only [List.mem_cons, List.not_mem_nil, or_false] at hf
      rcases hf with rfl | rfl <;> rfl)

/-- A pixel kept by the intersection policy is kept by the union policy as
soon as at least one observation is present. -/
theorem keptPixel_inter_le_union {cs : List (Option (ℚ × ℚ))} (hne : cs ≠ [])
    (h : keptPixel .intersection cs = true) : keptPixel .union cs = true := by
  cases cs with
  | nil => exact absurd rfl hne
  | cons c cs2 =>
    simp only [keptPixel, List.all_cons, Bool.and_eq_true] at h
    simp only [keptPixel, List.any_cons, Bool.or_eq_true]
    exact Or.inl h.1

/-- Claim C6: for the same partition and configuration, the number of template
pixels kept under the intersection inclusion policy never exceeds the number
kept under the union inclusion policy. -/
theorem intersection_le_union_count (m : ℕ) (frames : List Frame)
    (t₁ t₂ : Template)
    (h₁ : buildStellarTemplate ⟨m, .intersection⟩ frames = .ok t₁)
    (h₂ : buildStellarTemplate ⟨m, .union⟩ frames = .ok t₂) :
    countKept t₁ ≤ countKept t₂ := by
  simp only [buildStellarTemplate] at h₁ h₂
  by_cases hlen : (frames.filter (fun f => f.isValid)).length < m
  · rw [if_pos hlen] at h₁
    simp at h₁
  · rw [if_neg hlen] at h₁ h₂
    cases hv : frames.filter (fun f => f.isValid) with
    | nil =>
      rw [hv] at h₁
      simp at h₁
    | cons ref rest =>
      rw [hv] at h₁ h₂
      simp only [Except.ok.injEq] at h₁ h₂
      subst h₁
      subst h₂
      simp only [countKept, buildFromValid, List.countP_map]
      apply List.countP_mono_left
      intro j _ hkept
      simp only [Function.comp_apply] at hkept ⊢
      exact keptPixel_inter_le_union (by simp [contribsAt]) hkept

/-- Witness for claim C6 on a concrete one-Frame partition: the
intersection-mode pixel count is bounded by the union-mode pixel count. -/
theorem intersection_le_union_count_witness :
    countKept sampleTemplateInter ≤ countKept sampleTemplate :=
  intersection_le_union_count 1 [sampleFrame] sampleTemplateInter sampleTemplate rfl rfl

/-- Claim C7: a partition with fewer valid Frames than the configured minimum
produces no template, surfaces the insufficient-data condition, and writes no
template artifact to the store. -/
theorem insufficient_frames_error (cfg : Config) (frames : List Frame)
    (s : Store) (k : CacheKey)
    (h : (frames.filter (fun f => f.isValid)).length < cfg.minValidFrames) :
    buildStellarTemplate cfg frames = .error .insufficientData
    ∧ (load_or_build s k cfg frames).2.1 = s
    ∧ (storeLookup s k = none →
        (load_or_build s k cfg frames).1 = .error .insufficientData) := by
  have hb : buildStellarTemplate cfg frames = .error .insufficientData := by
    simp only [buildStellarTemplate]
    rw [if_pos h]
  refine ⟨hb, ?_, ?_⟩
  · unfold load_or_build
    cases hl : storeLookup s k with
    | some t => rfl
    | none => rw [hb]
  · intro hnone
    unfold load_or_build
    rw [hnone, hb]

/-- Witness for claim C7: a threshold of two valid Frames with a single valid
Frame yields the insufficient-data error and leaves an empty store empty. -/
theorem insufficient_frames_error_witness :
    buildStellarTemplate cfgMin2 [sampleFrame] = .error .insufficientData
    ∧ (load_or_build [] sampleKey cfgMin2 [sampleFrame]).2.1 = []
    ∧ (load_or_build [] sampleKey cfgMin2 [sampleFrame]).1 = .error .insufficientData := by
  have h := insufficient_frames_error cfgMin2 [sampleFrame] [] sampleKey (by decide)
  exact ⟨h.1, h.2.1, h.2.2 rfl⟩

/-- Claim C1: building the stellar template in force-rebuild mode is
deterministic; two successful runs on the same Frames and configuration,
whatever the prior store contents or keys, return identical wavelength, flux
and uncertainty arrays. -/
theorem template_rebuild_deterministic (s₁ s₂ : Store) (k₁ k₂ : CacheKey)
    (cfg : Config) (frames : List Frame) (t₁ t₂ : Template) (r₁ r₂ : Store)
    (h₁ : forceRebuild s₁ k₁ cfg frames = .ok (t₁, r₁))
    (h₂ : forceRebuild s₂ k₂ cfg frames = .ok (t₂, r₂)) :
    t₁.flux = t₂.flux ∧ t₁.uncert = t₂.uncert ∧ t₁.waves = t₂.waves := by
  unfold forceRebuild at h₁ h₂
  cases hb : buildStellarTemplate cfg frames with
  | error e => rw [hb] at h₁; simp at h₁
  | ok t =>
    rw [hb] at h₁ h₂
    simp only [Except.ok.injEq, Prod.mk.injEq] at h₁ h₂
    rw [← h₁.1, ← h₂.1]
    exact ⟨rfl, rfl, rfl⟩

/-- Witness for claim C1: two force rebuilds from different store states on
the same sample Frame and configuration give the same arrays. -/
theorem template_rebuild_deterministic_witness :
    sampleTemplate.flux = sampleTemplate.flux
    ∧ sampleTemplate.uncert = sampleTemplate.uncert
    ∧ sampleTemplate.waves = sampleTemplate.waves :=
  template_rebuild_deterministic [] [(sampleKey, sampleTemplateInter)]
    sampleKey ("subInst2", "fp2") cfgUnion1 [sampleFrame] sampleTemplate sampleTemplate
    (storeInsert [] sampleKey sampleTemplate)
    (storeInsert [(sampleKey, sampleTemplateInter)] ("subInst2", "fp2") sampleTemplate)
    rfl rfl

/-- Claim C5: a successful load-or-build immediately followed by another
load-or-build with the same key is a pure cache hit; the second call invokes
no builder, leaves the store unchanged and returns the identical template. -/
theorem load_or_build_idempotent (s : Store) (k : CacheKey) (cfg : Config)
    (frames : List Frame) (t : Template) (s₁ : Store) (b : Bool)
    (h : load_or_build s k cfg frames = (.ok t, s₁, b)) :
    load_or_build s₁ k cfg frames = (.ok t, s₁, false) := by
  unfold load_or_build at h ⊢
  cases hl : storeLookup s k with
  | some t0 =>
    rw [hl] at h
    simp only [Prod.mk.injEq, Except.ok.injEq] at h
    rw [← h.2.1, hl, h.1]
  | none =>
    rw [hl] at h
    cases hb : buildStellarTemplate cfg frames with
    | error e => rw [hb] at h; simp at h
    | ok t0 =>
      rw [hb] at h
      simp only [Prod.mk.injEq, Except.ok.injEq] at h
      rw [← h.2.1]
      have hfind : storeLookup (storeInsert s k t0) k = some t0 := by
        simp [storeLookup, storeInsert]
      rw [hfind, h.1]

/-- Witness for claim C5: with the sample template already stored under the
sample key, the call is a pure cache hit returning the stored template with no
builder invocation. -/
theorem load_or_build_idempotent_witness :
    load_or_build [(sampleKey, sampleTemplate)] sampleKey cfgUnion1 [sampleFrame]
      = (.ok sampleTemplate, [(sampleKey, sampleTemplate)], false) :=
  load_or_build_idempotent [] sampleKey cfgUnion1 [sampleFrame] sampleTemplate
    [(sampleKey, sampleTemplate)] true rfl

/-- Claim C9: registering a wavelength-interval declaration under a name that
duplicates an already registered one, the built-in default features included,
is rejected as a configuration error before any numeric work, and the
registry is never silently overwritten. -/
theorem duplicate_feature_name_rejected (ind : Indicators) (nm : String)
    (region : WvInterval) (h : nm ∈ ind.features.map Prod.fst) :
    add_feature ind nm region = .error .duplicateName := by
  unfold add_feature
  rw [if_pos h]

/-- Witness for claim C9: registering a new interval under the built-in
feature name Halpha is rejected. -/
theorem duplicate_feature_name_rejected_witness :
    add_feature initialIndicators "Halpha" (6000, 6001) = .error .duplicateName :=
  duplicate_feature_name_rejected initialIndicators "Halpha" (6000, 6001) (by decide)

/-- Claim C10: a configuration update whose new value violates the declared
constraint of the parameter raises InvalidConfiguration re-raised as
InternalError and leaves the stored configuration value unchanged, while the
value is assigned only after the constraint check succeeds. -/
theorem invalid_config_rejected (p : InternalParameters) (key : String)
    (value : ConfigValue) (pdef : UserParam)
    (hp : lookupParam p.paramDefs key = some pdef) :
    (check_if_value_meets_constraint pdef.constraints value = false →
      update_configs_with_values p [(key, value)]
        = (p, some (.internalError (some .invalidConfiguration))))
    ∧ (check_if_value_meets_constraint pdef.constraints value = true →
      update_configs_with_values p [(key, value)] = (setConfig p key value, none)
        ∧ getConfig (setConfig p key value) key = some value) := by
  constructor
  · intro hc
    unfold update_configs_with_values
    rw [hp]
    simp [hc]
  · intro hc
    unfold update_configs_with_values
    rw [hp]
    simp only [hc, if_true]
    exact ⟨rfl, by simp [getConfig, setConfig, lookupConfig]⟩

/-- Witness for claim C10 at the apply_FluxCorr example of the notebook: the
update with None is rejected with the stored value untouched, and the update
with a Boolean value is assigned. -/
theorem invalid_config_rejected_witness :
    (update_configs_with_values fluxCorrParams [("apply_FluxCorr", .vnone)]
      = (fluxCorrParams, some (.internalError (some .invalidConfiguration))))
    ∧ (update_configs_with_values fluxCorrParams [("apply_FluxCorr", .vbool true)]
        = (setConfig fluxCorrParams "apply_FluxCorr" (.vbool true), none)
      ∧ getConfig (setConfig fluxCorrParams "apply_FluxCorr" (.vbool true)) "apply_FluxCorr"
        = some (.vbool true)) :=
  ⟨(invalid_config_rejected fluxCorrParams "apply_FluxCorr" .vnone pdefFluxCorr rfl).1 rfl,
   (invalid_config_rejected fluxCorrParams "apply_FluxCorr" (.vbool true) pdefFluxCorr rfl).2 rfl⟩
